import Mathlib

/-!
Verification development for the `index` package (`rolodex.go`) and the
`Discriminator` type of the libopenapi repository.

The Go sources are shallowly embedded: Go structs become Lean structures,
byte slices become `String`s, `nil`-able pointers become `Option`s, Go
errors become the `GoError` structure (with `errors.Join` modelled as a
`List GoError` that is "nil" exactly when empty), and the stdlib path and
URL helpers used by the source (`filepath.Clean`, `filepath.Join`,
`filepath.Abs`, `filepath.Base`, `url.Parse`'s scheme detection) are
implemented as pure functions over the underlying character lists.

Go maps (`map[string]fs.FS`, the discriminator mapping) are embedded as
association lists; since Go map iteration order is unspecified, theorems
that depend on iteration order quantify over permutations of the
association list instead of fixing one order.
-/

namespace LibOpenAPI

/-- A Go `error` value: only its message is relevant to the claims. -/
structure GoError where
  msg : String
deriving DecidableEq, Repr

/-- Go `time.Time`, reduced to an integer timestamp; `0` is the zero value
`time.Time\x7b\x7d` (written here without braces). -/
def GoTime := Int
deriving instance DecidableEq, Repr for GoTime

/-- The zero `time.Time`. -/
def GoTime.zero : GoTime := (0 : Int)

/-- `FileExtension` constants used by the index package (`UNSUPPORTED` is the
zero value returned by `rolodexFile.GetFileExtension` when no file is set). -/
inductive FileExtension where
  | YAML
  | JSON
  | UNSUPPORTED
deriving DecidableEq, Repr

/-- `true` iff the second list is a prefix of the first. -/
def startsWithL : List Char → List Char → Bool
  | _, [] => true
  | [], _ :: _ => false
  | c :: cs, p :: ps => c = p && startsWithL cs ps

/-- `true` iff the second list is a suffix of the first. -/
def endsWithL (s post : List Char) : Bool :=
  startsWithL s.reverse post.reverse

/-- Modelled from the spec: `ExtractFileType` is not among the sampled
sources; the spec (sections 3 and 6) only requires a "detected extension"
derived from the file name, so it is modelled as suffix classification. -/
def ExtractFileType (p : String) : FileExtension :=
  if endsWithL p.data ".yaml".data ∨ endsWithL p.data ".yml".data then .YAML
  else if endsWithL p.data ".json".data then .JSON
  else .UNSUPPORTED

/-- A built `SpecIndex`; only its identity matters to the claims, carried by
the root node it was built from. -/
structure SpecIndex where
  rootNode : Nat
deriving DecidableEq, Repr

/-- `datamodel.SpecInfo` as consumed by `rolodexFile.Index`: the parsed root
node of the file content. -/
structure SpecInfo where
  rootNode : Nat
deriving DecidableEq, Repr

/-- `SpecIndexConfig`, restricted to the fields `rolodex.go` touches.
The `Rolodex` back-pointer assignments (`indexConfig.Rolodex = r`,
`config.Rolodex = rf.rolodex`) are pointer-identity plumbing with no effect
on any claim and are not modelled. -/
structure SpecIndexConfig where
  avoidBuildIndex : Bool
  specAbsolutePath : String
deriving DecidableEq, Repr

/-! ## Path algebra: models of `path/filepath` (unix rules) and
`net/url` scheme detection. -/

/-- Split a character list on `/` separators (components may be empty). -/
def splitSlashAux : List Char → List Char → List (List Char)
  | [], cur => [cur.reverse]
  | c :: rest, cur =>
    if c = '/' then cur.reverse :: splitSlashAux rest []
    else splitSlashAux rest (c :: cur)

/-- Re-join path components with `/`. -/
def joinSlash : List (List Char) → List Char
  | [] => []
  | [x] => x
  | x :: xs => x ++ '/' :: joinSlash xs

/-- The element loop of `filepath.Clean`: drop empty and `.` components,
let `..` pop the previous component (dropped at the root, kept when the
path is relative and nothing is left to pop). `acc` is kept reversed. -/
def cleanComps (rooted : Bool) : List (List Char) → List (List Char) → List (List Char)
  | acc, [] => acc.reverse
  | acc, c :: rest =>
    if c = [] ∨ c = ['.'] then cleanComps rooted acc rest
    else if c = ['.', '.'] then
      match acc with
      | [] => if rooted then cleanComps rooted [] rest else cleanComps rooted [['.', '.']] rest
      | top :: accTail =>
        if top = ['.', '.'] then cleanComps rooted (c :: acc) rest
        else cleanComps rooted accTail rest
    else cleanComps rooted (c :: acc) rest

/-- `filepath.Clean` for unix paths. -/
def goClean (s : String) : String :=
  match s.data with
  | [] => "."
  | c0 :: _ =>
    let rooted := c0 = '/'
    let comps := cleanComps rooted [] (splitSlashAux s.data [])
    let body := joinSlash comps
    if rooted then ⟨'/' :: body⟩
    else if body = [] then "." else ⟨body⟩

/-- `filepath.Join` for two elements: empty elements are skipped and the
result is cleaned; the empty string is returned when both are empty. -/
def goJoin (a b : String) : String :=
  if a.data = [] then (if b.data = [] then "" else goClean b)
  else if b.data = [] then goClean a
  else goClean ⟨a.data ++ '/' :: b.data⟩

/-- `filepath.IsAbs` for unix paths. -/
def goIsAbs (s : String) : Bool :=
  match s.data with
  | '/' :: _ => true
  | _ => false

/-- `filepath.Abs`, parameterized by the working directory `cwd` (the
source discards `Abs`'s error return). -/
def goAbs (cwd s : String) : String :=
  if goIsAbs s then goClean s else goJoin cwd s

/-- `filepath.Base` for unix paths. -/
def goBase (p : String) : String :=
  match p.data with
  | [] => "."
  | _ =>
    let comps := (splitSlashAux p.data []).filter (fun c => ¬ c = [])
    match comps.getLast? with
    | some l => ⟨l⟩
    | none => if goIsAbs p then "/" else "."

/-- A character that may start a URL scheme (`net/url.getScheme`). -/
def isSchemeStart (c : Char) : Bool :=
  ('a' ≤ c ∧ c ≤ 'z') ∨ ('A' ≤ c ∧ c ≤ 'Z')

/-- A character that may continue a URL scheme (`net/url.getScheme`). -/
def isSchemeChar (c : Char) : Bool :=
  isSchemeStart c ∨ ('0' ≤ c ∧ c ≤ '9') ∨ c = '+' ∨ c = '-' ∨ c = '.'

/-- The scan of `net/url.getScheme`: `true` iff a `:` is reached at a
position greater than zero with only valid scheme characters before it. -/
def schemeLoop : List Char → Bool → Bool
  | [], _ => false
  | c :: rest, first =>
    if c = ':' then ¬ first
    else if first then isSchemeStart c && schemeLoop rest false
    else isSchemeChar c && schemeLoop rest false

/-- Models the test `u, _ := url.Parse(location); u != nil && u.Scheme != ""`
in `Rolodex.Open`. Parse failures after scheme extraction (ASCII control
characters in the remainder) are not modelled; every location appearing in
the claims and witnesses is control-character free. -/
def isUrlWithScheme (s : String) : Bool :=
  schemeLoop s.data true

/-! ## File records: `LocalFile`, `RemoteFile`, `rolodexFile`. -/

/-- `LocalFile` as used by `rolodex.go`. Its struct declaration is not among
the sampled sources; the fields are exactly those the sampled source reads
or writes (`filename`, `name`, `extension`, `data`, `fullPath`,
`lastModified`, `readingErrors`) plus the size, mode and cached index the
spec (section 3: RolodexFile) attributes to a file record. Byte-slice data
is carried as a `String`. -/
structure LocalFile where
  filename : String
  name : String
  extension : FileExtension
  data : String
  fullPath : String
  lastModified : GoTime
  readingErrors : List GoError
  size : Int
  mode : Nat
  index : Option SpecIndex
deriving DecidableEq, Repr

/-- `LocalFile.Size` — modelled from the spec (section 6: size is a stored
attribute of the file record); the method body is not among the sampled
sources. -/
def LocalFile.Size (f : LocalFile) : Int := f.size

/-- `LocalFile.Mode` — modelled from the spec (section 6: mode bits are a
stored attribute of the file record). -/
def LocalFile.Mode (f : LocalFile) : Nat := f.mode

/-- `RemoteFile` as used by `rolodex.go`: fields exactly as read by the
sampled source (`filename`, `data`, `extension`, `fullPath`,
`lastModified`, `seekingErrors`) plus stored size and mode per the spec. -/
structure RemoteFile where
  filename : String
  data : String
  extension : FileExtension
  fullPath : String
  lastModified : GoTime
  seekingErrors : List GoError
  size : Int
  mode : Nat
deriving DecidableEq, Repr

/-- `RemoteFile.Size` — modelled from the spec (section 6). -/
def RemoteFile.Size (f : RemoteFile) : Int := f.size

/-- `RemoteFile.Mode` — modelled from the spec (section 6). -/
def RemoteFile.Mode (f : RemoteFile) : Nat := f.mode

/-- `rolodexFile` (`rolodex.go` lines 50-56). The `rolodex` back-pointer is
pointer-identity plumbing and is not modelled. -/
structure rolodexFile where
  location : String
  index : Option SpecIndex
  localFile : Option LocalFile
  remoteFile : Option RemoteFile
deriving DecidableEq, Repr

/-- `rolodexFile.Name` (lines 58-66). -/
def rolodexFile.Name (rf : rolodexFile) : String :=
  match rf.localFile with
  | some lf => lf.filename
  | none =>
    match rf.remoteFile with
    | some rmf => rmf.filename
    | none => ""

/-- `rolodexFile.GetIndex` (lines 68-70). -/
def rolodexFile.GetIndex (rf : rolodexFile) : Option SpecIndex := rf.index

/-- `rolodexFile.GetContent` (lines 98-106). -/
def rolodexFile.GetContent (rf : rolodexFile) : String :=
  match rf.localFile with
  | some lf => lf.data
  | none =>
    match rf.remoteFile with
    | some rmf => rmf.data
    | none => ""

/-- `rolodexFile.GetFileExtension` (lines 107-115). -/
def rolodexFile.GetFileExtension (rf : rolodexFile) : FileExtension :=
  match rf.localFile with
  | some lf => lf.extension
  | none =>
    match rf.remoteFile with
    | some rmf => rmf.extension
    | none => .UNSUPPORTED

/-- `rolodexFile.GetFullPath` (lines 116-124). -/
def rolodexFile.GetFullPath (rf : rolodexFile) : String :=
  match rf.localFile with
  | some lf => lf.fullPath
  | none =>
    match rf.remoteFile with
    | some rmf => rmf.fullPath
    | none => ""

/-- `rolodexFile.ModTime` (lines 125-133). -/
def rolodexFile.ModTime (rf : rolodexFile) : GoTime :=
  match rf.localFile with
  | some lf => lf.lastModified
  | none =>
    match rf.remoteFile with
    | some rmf => rmf.lastModified
    | none => GoTime.zero

/-- `rolodexFile.Size` (lines 135-143). -/
def rolodexFile.Size (rf : rolodexFile) : Int :=
  match rf.localFile with
  | some lf => lf.Size
  | none =>
    match rf.remoteFile with
    | some rmf => rmf.Size
    | none => 0

/-- `rolodexFile.IsDir` (lines 145-147): constantly `false`. -/
def rolodexFile.IsDir (_rf : rolodexFile) : Bool := false

/-- `rolodexFile.Sys` (lines 149-151): constantly `nil`. -/
def rolodexFile.Sys (_rf : rolodexFile) : Option Unit := none

/-- `rolodexFile.Mode` (lines 153-161); `os.FileMode(0)` is the default. -/
def rolodexFile.Mode (rf : rolodexFile) : Nat :=
  match rf.localFile with
  | some lf => lf.Mode
  | none =>
    match rf.remoteFile with
    | some rmf => rmf.Mode
    | none => 0

/-- `rolodexFile.GetErrors` (lines 163-171). -/
def rolodexFile.GetErrors (rf : rolodexFile) : List GoError :=
  match rf.localFile with
  | some lf => lf.readingErrors
  | none =>
    match rf.remoteFile with
    | some rmf => rmf.seekingErrors
    | none => []

/-- `rolodexFile.Index` (lines 72-96), with the external collaborators as
explicit parameters: `extractSpecInfo` stands for
`datamodel.ExtractSpecInfo` and `newSpecIndex` for
`NewSpecIndexWithConfig`, neither of which is among the sampled sources.
The returned triple is the updated file record, the Go result, and a flag
recording whether the content was parsed on this call (instrumentation for
the caching claim; the source parses exactly when the cache check falls
through). -/
def rolodexFile.Index
    (extractSpecInfo : String → Except GoError SpecInfo)
    (newSpecIndex : Nat → SpecIndexConfig → SpecIndex)
    (rf : rolodexFile) (config : SpecIndexConfig) :
    rolodexFile × Except GoError SpecIndex × Bool :=
  match rf.index with
  | some i => (rf, .ok i, false)
  | none =>
    let content₀ : String :=
      match rf.localFile with
      | some lf => lf.data
      | none => ""
    let content : String :=
      match rf.remoteFile with
      | some rmf => rmf.data
      | none => content₀
    match extractSpecInfo content with
    | .error e => (rf, .error e, true)
    | .ok info =>
      let idx := newSpecIndex info.rootNode config
      ({ rf with index := some idx }, .ok idx, true)

/-! ## Filesystems and the `Rolodex`. -/

/-- The data read from a file handle that is not rolodex-native
(`Rolodex.Open` lines 312-334): the bytes `io.ReadAll` yields (or its
error), the `Stat` outcome, and the reported modification time. -/
structure GenericFile where
  data : String
  readErr : Option GoError
  statErr : Option GoError
  modTime : GoTime

/-- An `fs.File` as inspected by `Rolodex.Open`: either a
`localRolodexFile` (native; its inner `f` is a `*LocalFile` or not — lines
305-310) or any other file handle, which is read generically. -/
inductive FsFile where
  | native (inner : Option LocalFile)
  | generic (g : GenericFile)

/-- An `fs.FS` as used by `rolodex.go`: its `Open` method, plus the file
listing it exposes when (and only when) it is a `*LocalFS`
(the `fs.(*LocalFS)` type assertion of line 226). The `*LocalFS` file
values are taken to implement `CanBeIndexed`, as `LocalFile` does. -/
structure GoFS where
  openFile : String → Except GoError FsFile
  localFiles : Option (List LocalFile)

/-- `Rolodex` (lines 42-48). The filesystem maps are association lists;
iteration-order-dependent operations quantify over permutations. The
`indexingDuration` field is wall-clock bookkeeping and is not modelled. -/
structure Rolodex where
  localFS : List (String × GoFS)
  remoteFS : List (String × GoFS)
  indexed : Bool
  indexConfig : SpecIndexConfig

/-- Go map assignment on an association list: replace the value at an
existing key, otherwise append the binding. -/
def insertAssoc (k : String) (v : GoFS) : List (String × GoFS) → List (String × GoFS)
  | [] => [(k, v)]
  | (k', v') :: rest =>
    if k' = k then (k, v) :: rest else (k', v') :: insertAssoc k v rest

/-- First-match lookup on an association list (Go map indexing). -/
def lookupAssoc (k : String) : List (String × GoFS) → Option GoFS
  | [] => none
  | (k', v') :: rest => if k' = k then some v' else lookupAssoc k rest

/-- `NewRolodex` (lines 173-181). -/
def NewRolodex (indexConfig : SpecIndexConfig) : Rolodex :=
  { localFS := [], remoteFS := [], indexed := false, indexConfig := indexConfig }

/-- `Rolodex.AddLocalFS` (lines 183-186): the filesystem is stored under
`filepath.Abs(baseDir)` (the error return is discarded). -/
def Rolodex.AddLocalFS (cwd : String) (r : Rolodex) (baseDir : String)
    (fileSystem : GoFS) : Rolodex :=
  { r with localFS := insertAssoc (goAbs cwd baseDir) fileSystem r.localFS }

/-- `Rolodex.AddRemoteFS` (lines 188-190): the filesystem is stored under
`baseURL` exactly as supplied. -/
def Rolodex.AddRemoteFS (r : Rolodex) (baseURL : String)
    (fileSystem : GoFS) : Rolodex :=
  { r with remoteFS := insertAssoc baseURL fileSystem r.remoteFS }

/-! ## `Rolodex.Open` (lines 271-346). -/

/-- What one iteration of the root loop concludes for its root. -/
inductive RootOutcome where
  | found (lf : LocalFile)
  | failErr (e : GoError)
  | skip

/-- Handling of a successfully opened file (lines 304-334). A native handle
wrapping a `*LocalFile` is taken as-is; a native handle wrapping anything
else is passed over silently; a generic handle is read (`io.ReadAll`) and
stat-ed, recording either error, and accepted only when the content is
non-empty — an empty read is passed over with no recorded error. Note the
source builds the `LocalFile` from `fileLookup` (the joined path) even when
the successful open used the raw location. -/
def tryOpenedFile (fileLookup : String) : FsFile → RootOutcome
  | .native (some lf) => .found lf
  | .native none => .skip
  | .generic g =>
    match g.readErr with
    | some e => .failErr e
    | none =>
      match g.statErr with
      | some e => .failErr e
      | none =>
        if g.data.data = [] then .skip
        else
          .found
            { filename := goBase fileLookup
              name := goBase fileLookup
              extension := ExtractFileType fileLookup
              data := g.data
              fullPath := fileLookup
              lastModified := g.modTime
              readingErrors := []
              size := 0
              mode := 0
              index := none }

/-- One iteration of the root loop (lines 278-336) for root `(k, v)`,
returning the outcome and the sequence of arguments passed to `v.Open`
(instrumentation recording lookup order). A URL-shaped location is skipped
(the `TODO handle URLs` branch). Otherwise the lookup path is the location
itself when absolute, else `filepath.Abs(filepath.Join(k, location))`; that
lookup is tried first and the raw location is retried on failure, recording
only the second error. -/
def openRoot (cwd location k : String) (v : GoFS) : RootOutcome × List String :=
  if isUrlWithScheme location then (.skip, [])
  else
    let fileLookup :=
      if goIsAbs location then location else goAbs cwd (goJoin k location)
    match v.openFile fileLookup with
    | .ok f => (tryOpenedFile fileLookup f, [fileLookup])
    | .error _ =>
      match v.openFile location with
      | .ok f => (tryOpenedFile fileLookup f, [fileLookup, location])
      | .error e₂ => (.failErr e₂, [fileLookup, location])

/-- The root loop of `Rolodex.Open`: first component is the `localFile`
found (if any), second the accumulated `errorStack`, third the trace of
`Open` arguments across roots. The loop breaks at the first root whose
outcome is `found`; error and skip outcomes fall through to the next
root. -/
def openLoop (cwd location : String) :
    List (String × GoFS) → Option LocalFile × List GoError × List String
  | [] => (none, [], [])
  | (k, v) :: rest =>
    match openRoot cwd location k v with
    | (.found lf, tr) => (some lf, [], tr)
    | (.failErr e, tr) =>
      let (f, es, tr') := openLoop cwd location rest
      (f, e :: es, tr ++ tr')
    | (.skip, tr) =>
      let (f, es, tr') := openLoop cwd location rest
      (f, es, tr ++ tr')

/-- The result of `Rolodex.Open`: the returned `RolodexFile` (if any), the
`errors.Join`-ed error stack (`nil` iff the list is empty), and the lookup
trace. -/
structure OpenResult where
  file : Option rolodexFile
  errs : List GoError
  trace : List String

/-- `Rolodex.Open` (lines 271-346) evaluated over one iteration order
`order` of the `localFS` map (Go map iteration order is unspecified, so
`order` ranges over permutations of the registered association list). On
success the returned `rolodexFile` wraps the found `LocalFile`; the joined
error stack is returned in either case. -/
def Rolodex.openIter (cwd : String) (order : List (String × GoFS))
    (location : String) : OpenResult :=
  match openLoop cwd location order with
  | (some lf, es, tr) =>
    { file := some { location := lf.fullPath, index := none,
                     localFile := some lf, remoteFile := none }
      errs := es
      trace := tr }
  | (none, es, tr) => { file := none, errs := es, trace := tr }

/-! ## `Rolodex.IndexTheRolodex` (lines 192-269).

The goroutine fan-out and the three unbuffered result channels are embedded
as a small-step transition system: every file task contributes an ordered
queue of pending sends (`errChan` then `indexChan`, in the order the task
sends them — unbuffered channels deliver sends one at a time, in program
order per task), a `*LocalFS` task's `doneChan` send becomes available only
once all of its file queues have drained (the `wg.Wait()` barrier), and the
gather loop consumes one available message per step, the choice of message
being taken from an explicit schedule. Per Go's scheduling fairness every
spawned file task eventually executes its `Index` call (the call precedes
its first channel send), so the per-file cache side effects are applied to
the rolodex state up front, independent of the drain schedule. -/

/-- A pending send of one file task: a value on `errChan` or on
`indexChan` (the source sends the index even when it is `nil`). -/
inductive Msg where
  | err (e : GoError)
  | idx (i : Option SpecIndex)
deriving DecidableEq, Repr

/-- One `indexRolodexFile` goroutine: whether the filesystem passed the
`*LocalFS` assertion (only then is a `doneChan` send ever made), the
pending send queues of its file tasks, and whether `done` was consumed. -/
structure FSTask where
  isLocal : Bool
  queues : List (List Msg)
  doneSent : Bool
deriving DecidableEq, Repr

/-- The gather loop's state (lines 239-265): the spawned tasks, the
`indexingCompleted` counter, `caughtErrors`, and `indexBuildQueue`. -/
structure DrainState where
  tasks : List FSTask
  completed : Nat
  caughtErrors : List GoError
  indexBuildQueue : List (Option SpecIndex)
deriving DecidableEq, Repr

/-- A receivable message at the current instant. -/
inductive StepChoice where
  | msg (t f : Nat)
  | fsDone (t : Nat)
deriving DecidableEq, Repr

/-- The messages task `t` can deliver right now: the head of every
non-empty file queue, plus `done` once every file queue has drained (and
only for a `*LocalFS` task whose `done` has not yet been consumed). -/
def taskChoices (t : Nat) (task : FSTask) : List StepChoice :=
  ((List.range task.queues.length).filter
      (fun f => ¬ (task.queues.getD f []).isEmpty)).map (StepChoice.msg t) ++
  (if task.isLocal && !task.doneSent && task.queues.all List.isEmpty
   then [StepChoice.fsDone t] else [])

/-- All messages any task can deliver right now. -/
def availChoices (s : DrainState) : List StepChoice :=
  ((List.range s.tasks.length).map
    (fun t => taskChoices t (s.tasks.getD t ⟨false, [], false⟩))).flatten

/-- Receiving one message (the three `select` cases of lines 255-264):
an `errChan` value increments `indexingCompleted` and is appended to
`caughtErrors`; an `indexChan` value is appended to `indexBuildQueue`; a
`doneChan` value increments `indexingCompleted`. -/
def applyChoice (s : DrainState) : StepChoice → DrainState
  | .msg t f =>
    match s.tasks.get? t with
    | none => s
    | some task =>
      match task.queues.get? f with
      | none => s
      | some [] => s
      | some (m :: rest) =>
        let tasks' := s.tasks.set t { task with queues := task.queues.set f rest }
        match m with
        | .err e =>
          { s with tasks := tasks', completed := s.completed + 1,
                   caughtErrors := s.caughtErrors ++ [e] }
        | .idx i =>
          { s with tasks := tasks', indexBuildQueue := s.indexBuildQueue ++ [i] }
  | .fsDone t =>
    match s.tasks.get? t with
    | none => s
    | some task =>
      { s with tasks := s.tasks.set t { task with doneSent := true },
               completed := s.completed + 1 }

/-- The gather loop `for indexingCompleted < totalToIndex` (lines 254-265),
fuel-bounded: `none` means the loop never terminated within `fuel` steps
(in particular the deadlock when a counted filesystem never reports). The
schedule picks among the currently available messages; an exhausted
schedule defaults to the first available message. -/
def drain (total : Nat) : Nat → List Nat → DrainState → Option DrainState
  | 0, _, _ => none
  | fuel + 1, sched, s =>
    if total ≤ s.completed then some s
    else
      match (availChoices s).get? (sched.headD 0 % (availChoices s).length) with
      | none => none
      | some c => drain total fuel sched.tail (applyChoice s c)

/-- Modelled from the spec: `LocalFile.Index` is not among the sampled
sources; per the spec (section 3: a RolodexFile's "Index is built at most
once, cached thereafter"; section 4.2: "each task parses the file and
builds an Index scoped to that file's absolute path") it mirrors
`rolodexFile.Index`: a cached index is returned as-is, otherwise the
content is parsed and, on success, an index is built against the copied
config carrying the file's absolute path and cached. The result is the
updated file together with its pending channel sends (`indexFileFunc`,
lines 213-224: the error, when any, goes to `errChan` first, and the
index — `nil` on error — always goes to `indexChan`). -/
def LocalFile.indexTask
    (extractSpecInfo : String → Except GoError SpecInfo)
    (newSpecIndex : Nat → SpecIndexConfig → SpecIndex)
    (config : SpecIndexConfig) (f : LocalFile) : LocalFile × List Msg :=
  match f.index with
  | some i => (f, [Msg.idx (some i)])
  | none =>
    match extractSpecInfo f.data with
    | .error e => (f, [Msg.err e, Msg.idx none])
    | .ok info =>
      let copiedConfig := { config with specAbsolutePath := f.fullPath }
      let idx := newSpecIndex info.rootNode copiedConfig
      ({ f with index := some idx }, [Msg.idx (some idx)])

/-- Spawning `indexRolodexFile` for one registered filesystem (lines
205-237): a filesystem that passes the `*LocalFS` assertion gets one file
task per file and a pending `done`; any other filesystem returns without
sending anything (it still counts toward `totalToIndex`). Returns the
filesystem with updated file caches and its task. -/
def spawnFS (extractSpecInfo : String → Except GoError SpecInfo)
    (newSpecIndex : Nat → SpecIndexConfig → SpecIndex)
    (config : SpecIndexConfig) (entry : String × GoFS) :
    (String × GoFS) × FSTask :=
  match entry.2.localFiles with
  | none => (entry, { isLocal := false, queues := [], doneSent := false })
  | some files =>
    let results := files.map (LocalFile.indexTask extractSpecInfo newSpecIndex config)
    ((entry.1, { entry.2 with localFiles := some (results.map Prod.fst) }),
     { isLocal := true, queues := results.map Prod.snd, doneSent := false })

/-- The outcome of one `IndexTheRolodex` call: the updated rolodex, the
final gather-loop state (`none` when the loop never finished — deadlock or
fuel exhaustion; the returned Go error is `errors.Join` of the final
state's `caughtErrors`, hence `nil` iff that list is empty), and the number
of per-file indexing tasks dispatched on this call. -/
structure IndexRunResult where
  rolodex : Rolodex
  drained : Option DrainState
  tasksDispatched : Nat

/-- `Rolodex.IndexTheRolodex` (lines 192-269). If the `indexed` guard flag
is set the call returns `nil` immediately. Otherwise
`indexConfig.AvoidBuildIndex` is set, one task is spawned per registered
filesystem (local then remote), and the gather loop drains the channels
until `indexingCompleted` reaches `totalToIndex`. NOTE, faithful to the
source: `r.indexed` is never assigned, and `indexBuildQueue` is discarded
when the call returns. -/
def Rolodex.IndexTheRolodex
    (extractSpecInfo : String → Except GoError SpecInfo)
    (newSpecIndex : Nat → SpecIndexConfig → SpecIndex)
    (sched : List Nat) (fuel : Nat) (r : Rolodex) : IndexRunResult :=
  if r.indexed then
    { rolodex := r,
      drained := some { tasks := [], completed := 0, caughtErrors := [],
                        indexBuildQueue := [] },
      tasksDispatched := 0 }
  else
    let config := { r.indexConfig with avoidBuildIndex := true }
    let localSpawned := r.localFS.map (spawnFS extractSpecInfo newSpecIndex config)
    let remoteSpawned := r.remoteFS.map (spawnFS extractSpecInfo newSpecIndex config)
    let tasks := localSpawned.map Prod.snd ++ remoteSpawned.map Prod.snd
    let totalToIndex := r.localFS.length + r.remoteFS.length
    let start : DrainState :=
      { tasks := tasks, completed := 0, caughtErrors := [], indexBuildQueue := [] }
    { rolodex :=
        { r with
          localFS := localSpawned.map Prod.fst,
          remoteFS := remoteSpawned.map Prod.fst,
          indexConfig := config },
      drained := drain totalToIndex fuel sched start,
      tasksDispatched :=
        (tasks.map (fun t => t.queues.length)).sum }

/-! ## `Discriminator` (datamodel/high-level `base` package). -/

/-- `low.KeyReference`, reduced to the `Value` field the sampled source
reads. -/
structure KeyReference (α : Type) where
  value : α
deriving DecidableEq, Repr

/-- `low.ValueReference`, reduced to its `Value` field. -/
structure ValueReference (α : Type) where
  value : α
deriving DecidableEq, Repr

/-- `Discriminator` (part_000 lines 18-21); the Go map becomes an
association list — since `FindMappingValue`'s specification is existential,
the unspecified Go map iteration order is immaterial. -/
structure Discriminator where
  propertyName : String
  mapping : List (KeyReference String × ValueReference String)
deriving DecidableEq, Repr

/-- The range loop of `FindMappingValue` (part_000 lines 25-30). -/
def findMappingAux (key : String) :
    List (KeyReference String × ValueReference String) →
    Option (ValueReference String)
  | [] => none
  | (k, v) :: rest => if k.value = key then some v else findMappingAux key rest

/-- `Discriminator.FindMappingValue` (part_000 lines 24-31): the first
entry whose key's `Value` equals `key`, else `nil`. -/
def Discriminator.FindMappingValue (d : Discriminator) (key : String) :
    Option (ValueReference String) :=
  findMappingAux key d.mapping

/-! ## Specification-side definitions and concrete instances used by the
theorems below. -/

/-- Lowercase one ASCII letter. -/
def lowerChar (c : Char) : Char :=
  if 'A' ≤ c ∧ c ≤ 'Z' then Char.ofNat (c.toNat + 32) else c

/-- Lowercase everything before the first `:`. -/
def canonSchemeAux : List Char → List Char
  | [] => []
  | c :: rest => if c = ':' then c :: rest else lowerChar c :: canonSchemeAux rest

/-- Modelled from the spec: section 4.2 says filesystems are registered
"keyed by canonicalized base path/URL"; no algorithm is given, so URL
canonicalization is modelled minimally as lowercasing the scheme (the URL
scheme is case-insensitive and canonically lowercase; `net/url.Parse`
itself lowercases it). Any definition under which canonicalization is not
the identity would do for the comparison this file makes. -/
def specCanonicalURL (u : String) : String :=
  ⟨canonSchemeAux u.data⟩

/-- A parse function for concrete runs: content `"good"` parses, all else
fails. -/
def wParse : String → Except GoError SpecInfo :=
  fun s => if s = "good" then .ok { rootNode := 1 } else .error { msg := "parse fail" }

/-- An index builder for concrete runs. -/
def wBuilder : Nat → SpecIndexConfig → SpecIndex :=
  fun n _ => { rootNode := n }

/-- A concrete `LocalFile` with the given name and content. -/
def wFile (nm d : String) : LocalFile :=
  { filename := nm, name := nm, extension := .YAML, data := d,
    fullPath := "/r/" ++ nm, lastModified := (0 : Int), readingErrors := [],
    size := 0, mode := 0, index := none }

/-- A `*LocalFS` carrying the given files; its `Open` always fails. -/
def wLocalFS (fs : List LocalFile) : GoFS :=
  { openFile := fun _ => .error { msg := "nf" }, localFiles := some fs }

/-- A rolodex with a single `*LocalFS` registered under `/r`. -/
def wRolodex (fs : List LocalFile) : Rolodex :=
  { localFS := [("/r", wLocalFS fs)], remoteFS := [], indexed := false,
    indexConfig := { avoidBuildIndex := false, specAbsolutePath := "" } }

/-- A default index configuration for concrete instances. -/
def wConfig : SpecIndexConfig :=
  { avoidBuildIndex := false, specAbsolutePath := "" }

/-- A filesystem serving `spec.yaml` both under the root-joined path (with
content `"B"`) and under the raw relative location (with content `"A"`). -/
def c3fs : GoFS :=
  { openFile := fun p =>
      if p = "/r1/spec.yaml" then
        .ok (.generic { data := "B", readErr := none, statErr := none, modTime := (0 : Int) })
      else if p = "spec.yaml" then
        .ok (.generic { data := "A", readErr := none, statErr := none, modTime := (0 : Int) })
      else .error { msg := "not found" },
    localFiles := none }

/-- A filesystem serving only `/a/s.yaml`, with content `"ONE"`. -/
def c4fs1 : GoFS :=
  { openFile := fun p =>
      if p = "/a/s.yaml" then
        .ok (.generic { data := "ONE", readErr := none, statErr := none, modTime := (0 : Int) })
      else .error { msg := "no ONE" },
    localFiles := none }

/-- A filesystem serving only `/b/s.yaml`, with content `"TWO"`. -/
def c4fs2 : GoFS :=
  { openFile := fun p =>
      if p = "/b/s.yaml" then
        .ok (.generic { data := "TWO", readErr := none, statErr := none, modTime := (0 : Int) })
      else .error { msg := "no TWO" },
    localFiles := none }

/-- A filesystem whose `Open` always fails with the same error. -/
def cFailFS : GoFS :=
  { openFile := fun _ => .error { msg := "always fails" }, localFiles := none }

/-- A filesystem whose `Open` always yields an empty generic file. -/
def cEmptyFS : GoFS :=
  { openFile := fun _ =>
      .ok (.generic { data := "", readErr := none, statErr := none, modTime := (0 : Int) }),
    localFiles := none }

/-- A concrete native file for witnesses. -/
def cNativeFile : LocalFile := wFile "n.yaml" "native-content"

/-- A filesystem answering every lookup with a native rolodex file. -/
def cNativeFS : GoFS :=
  { openFile := fun _ => .ok (.native (some cNativeFile)), localFiles := none }

/-- The root's filesystem serves the location — directly, or via the
raw-location fallback after the joined lookup fails — as a generic file
with no read or stat error and empty content. -/
def opensEmptyAt (cwd location k : String) (v : GoFS) : Prop :=
  ∃ g : GenericFile, g.readErr = none ∧ g.statErr = none ∧ g.data = "" ∧
    (v.openFile (if goIsAbs location then location
                 else goAbs cwd (goJoin k location)) = .ok (.generic g) ∨
     ((∃ e, v.openFile (if goIsAbs location then location
                        else goAbs cwd (goJoin k location)) = .error e) ∧
      v.openFile location = .ok (.generic g)))

/-- The `LocalFile` that `Rolodex.Open` builds when `c4fs2` serves
`/b/s.yaml`. -/
def c4foundFile : LocalFile :=
  { filename := "s.yaml", name := "s.yaml", extension := .YAML,
    data := "TWO", fullPath := "/b/s.yaml", lastModified := (0 : Int),
    readingErrors := [], size := 0, mode := 0, index := none }

/-- A concrete `rolodexFile` with only a local half. -/
def cRFileLocal : rolodexFile :=
  { location := "/r/n.yaml", index := none,
    localFile := some cNativeFile, remoteFile := none }

/-- A concrete uncached `rolodexFile` over a parseable local file. -/
def cRFileFresh : rolodexFile :=
  { location := "/r/a.yaml", index := none,
    localFile := some (wFile "a.yaml" "good"), remoteFile := none }

/-- `cRFileFresh` after a successful `Index` call under `wParse`. -/
def cRFileCached : rolodexFile :=
  { location := "/r/a.yaml", index := some { rootNode := 1 },
    localFile := some (wFile "a.yaml" "good"), remoteFile := none }

/-- A rolodex holding one `*LocalFS` with the given files under root `k`
and nothing else. -/
def oneFSRolodex (k : String) (openf : String → Except GoError FsFile)
    (cfg : SpecIndexConfig) (files : List LocalFile) : Rolodex :=
  { localFS := [(k, { openFile := openf, localFiles := some files })],
    remoteFS := [], indexed := false, indexConfig := cfg }

/-- A concrete discriminator with two mapping entries. -/
def cDisc : Discriminator :=
  { propertyName := "petType",
    mapping := [({ value := "cat" }, { value := "#/components/schemas/Cat" }),
                ({ value := "dog" }, { value := "#/components/schemas/Dog" })] }

/-! ## Theorems. -/

/-- Claim C8: every `rolodexFile` metadata accessor (`Name`, `GetContent`,
`GetFileExtension`, `GetFullPath`, `ModTime`, `Size`, `Mode`, `GetErrors`)
returns the local file's value when a local file is present, otherwise the
remote file's value when a remote file is present, and otherwise a
zero/empty default; `IsDir` is `false` and `Sys` is `nil`
unconditionally. -/
theorem C8_rolodexFile_accessors (rf : rolodexFile) :
    (∀ lf, rf.localFile = some lf →
      rf.Name = lf.filename ∧ rf.GetContent = lf.data ∧
      rf.GetFileExtension = lf.extension ∧ rf.GetFullPath = lf.fullPath ∧
      rf.ModTime = lf.lastModified ∧ rf.Size = lf.Size ∧
      rf.Mode = lf.Mode ∧ rf.GetErrors = lf.readingErrors) ∧
    (rf.localFile = none → ∀ rmf, rf.remoteFile = some rmf →
      rf.Name = rmf.filename ∧ rf.GetContent = rmf.data ∧
      rf.GetFileExtension = rmf.extension ∧ rf.GetFullPath = rmf.fullPath ∧
      rf.ModTime = rmf.lastModified ∧ rf.Size = rmf.Size ∧
      rf.Mode = rmf.Mode ∧ rf.GetErrors = rmf.seekingErrors) ∧
    (rf.localFile = none → rf.remoteFile = none →
      rf.Name = "" ∧ rf.GetContent = "" ∧
      rf.GetFileExtension = FileExtension.UNSUPPORTED ∧ rf.GetFullPath = "" ∧
      rf.ModTime = GoTime.zero ∧ rf.Size = 0 ∧
      rf.Mode = 0 ∧ rf.GetErrors = []) ∧
    rf.IsDir = false ∧ rf.Sys = none := by
  refine ⟨?_, ?_, ?_, rfl, rfl⟩
  · intro lf h
    simp [rolodexFile.Name, rolodexFile.GetContent, rolodexFile.GetFileExtension,
      rolodexFile.GetFullPath, rolodexFile.ModTime, rolodexFile.Size,
      rolodexFile.Mode, rolodexFile.GetErrors, h]
  · intro h rmf h2
    simp [rolodexFile.Name, rolodexFile.GetContent, rolodexFile.GetFileExtension,
      rolodexFile.GetFullPath, rolodexFile.ModTime, rolodexFile.Size,
      rolodexFile.Mode, rolodexFile.GetErrors, h, h2]
  · intro h h2
    simp [rolodexFile.Name, rolodexFile.GetContent, rolodexFile.GetFileExtension,
      rolodexFile.GetFullPath, rolodexFile.ModTime, rolodexFile.Size,
      rolodexFile.Mode, rolodexFile.GetErrors, h, h2]

/-- Witness for C8 at a concrete file with only a local half. -/
theorem C8_witness :
    cRFileLocal.Name = "n.yaml" ∧ cRFileLocal.IsDir = false := by
  have h := C8_rolodexFile_accessors cRFileLocal
  exact ⟨((h.1 cNativeFile rfl).1), h.2.2.2.1⟩

/-- Claim C5: a `rolodexFile`'s index is built at most once — a first
successful `Index` call parses (the parse flag is `true`) and caches the
built index on the file, and any subsequent call on the resulting file
returns the same cached index with a `nil` error, without parsing and
without changing the file. -/
theorem C5_index_built_at_most_once
    (parse : String → Except GoError SpecInfo)
    (build : Nat → SpecIndexConfig → SpecIndex)
    (rf : rolodexFile) (cfg : SpecIndexConfig)
    (rf' : rolodexFile) (res : Except GoError SpecIndex) (flag : Bool)
    (h0 : rf.index = none)
    (h : rolodexFile.Index parse build rf cfg = (rf', res, flag)) :
    flag = true ∧
    ∀ idx, res = .ok idx →
      rf'.index = some idx ∧
      ∀ (parse₂ : String → Except GoError SpecInfo)
        (build₂ : Nat → SpecIndexConfig → SpecIndex)
        (cfg₂ : SpecIndexConfig),
        rolodexFile.Index parse₂ build₂ rf' cfg₂ = (rf', .ok idx, false) := by
  unfold rolodexFile.Index at h
  rw [h0] at h
  revert h
  cases hp : parse (match rf.remoteFile with
    | some rmf => rmf.data
    | none => match rf.localFile with
      | some lf => lf.data
      | none => "") with
  | error e =>
    intro h
    simp only at h
    rw [hp] at h
    cases h
    refine ⟨rfl, ?_⟩
    intro idx hidx
    cases hidx
  | ok info =>
    intro h
    simp only at h
    rw [hp] at h
    cases h
    refine ⟨rfl, ?_⟩
    intro idx hidx
    cases hidx
    refine ⟨rfl, ?_⟩
    intro parse₂ build₂ cfg₂
    unfold rolodexFile.Index
    rfl

/-- Witness for C5: a concrete first call parses and caches, and the second
call returns the cache without parsing. -/
theorem C5_witness :
    rolodexFile.Index wParse wBuilder cRFileCached wConfig =
      (cRFileCached, .ok { rootNode := 1 }, false) := by
  have h := C5_index_built_at_most_once wParse wBuilder cRFileFresh wConfig
    cRFileCached (.ok { rootNode := 1 }) true rfl (by rfl)
  exact (h.2 { rootNode := 1 } rfl).2 wParse wBuilder wConfig

/-- `findMappingAux` finds `none` exactly when no entry's key value equals
the key, and any found value belongs to a matching entry. -/
theorem findMappingAux_spec (key : String)
    (l : List (KeyReference String × ValueReference String)) :
    (findMappingAux key l = none ↔ ∀ kv ∈ l, kv.1.value ≠ key) ∧
    (∀ v, findMappingAux key l = some v →
      ∃ kv ∈ l, kv.1.value = key ∧ kv.2 = v) := by
  induction l with
  | nil => simp [findMappingAux]
  | cons hd tl ih =>
    obtain ⟨k, v⟩ := hd
    simp only [findMappingAux]
    by_cases hk : k.value = key
    · rw [if_pos hk]
      constructor
      · constructor
        · intro h
          exact absurd h (by simp)
        · intro h
          exact absurd hk (h (k, v) (List.mem_cons_self _ _))
      · intro w hw
        injection hw with hw
        subst hw
        exact ⟨(k, v), List.mem_cons_self _ _, hk, rfl⟩
    · rw [if_neg hk]
      constructor
      · rw [ih.1]
        constructor
        · intro h kv hkv
          rcases List.mem_cons.mp hkv with h1 | h2
          · subst h1; exact hk
          · exact h kv h2
        · intro h kv hkv
          exact h kv (List.mem_cons_of_mem _ hkv)
      · intro w hw
        obtain ⟨kv, hmem, hval, hv⟩ := ih.2 w hw
        exact ⟨kv, List.mem_cons_of_mem _ hmem, hval, hv⟩

/-- Claim C10: `Discriminator.FindMappingValue key` returns some value `v`
belonging to an entry whose key's `Value` equals `key` whenever such an
entry exists, and returns `nil` exactly when no entry matches. -/
theorem C10_findMappingValue (d : Discriminator) (key : String) :
    ((∃ kv ∈ d.mapping, kv.1.value = key) →
      ∃ v, d.FindMappingValue key = some v ∧
        ∃ kv ∈ d.mapping, kv.1.value = key ∧ kv.2 = v) ∧
    (d.FindMappingValue key = none ↔ ∀ kv ∈ d.mapping, kv.1.value ≠ key) := by
  have h := findMappingAux_spec key d.mapping
  constructor
  · intro hex
    cases hv : d.FindMappingValue key with
    | none =>
      obtain ⟨kv, hmem, hval⟩ := hex
      exact absurd hval ((h.1.mp hv) kv hmem)
    | some v =>
      exact ⟨v, rfl, h.2 v hv⟩
  · exact h.1

/-- Witness for C10 at a concrete discriminator: the `"dog"` key maps to a
present entry, so a matching value is returned. -/
theorem C10_witness :
    ∃ v, cDisc.FindMappingValue "dog" = some v ∧
      ∃ kv ∈ cDisc.mapping, kv.1.value = "dog" ∧ kv.2 = v := by
  exact (C10_findMappingValue cDisc "dog").1
    ⟨({ value := "dog" }, { value := "#/components/schemas/Dog" }), by decide, rfl⟩

/-- Looking up the inserted key finds the inserted value (Go map
assignment followed by indexing). -/
theorem lookupAssoc_insertAssoc (k : String) (v : GoFS)
    (l : List (String × GoFS)) :
    lookupAssoc k (insertAssoc k v l) = some v := by
  induction l with
  | nil => simp [insertAssoc, lookupAssoc]
  | cons hd tl ih =>
    obtain ⟨k', v'⟩ := hd
    by_cases hk : k' = k
    · simp [insertAssoc, lookupAssoc, hk]
    · simp [insertAssoc, lookupAssoc, hk, ih]

/-- Claim C7 counterexample: `AddRemoteFS` stores the filesystem under
`baseURL` exactly as supplied, NOT under its canonical form — for the
concrete base URL `"HTTP://Example.com/specs"` the registered key is the
verbatim string, which differs from the canonical form of that URL. -/
theorem C7_counterexample :
    ((NewRolodex wConfig).AddRemoteFS "HTTP://Example.com/specs" cFailFS).remoteFS.map
        Prod.fst = ["HTTP://Example.com/specs"] ∧
    specCanonicalURL "HTTP://Example.com/specs" ≠ "HTTP://Example.com/specs" := by
  constructor
  · rfl
  · decide

/-- Claim C7 (amended): `AddLocalFS(baseDir, fs)` registers the filesystem
under the absolute form of `baseDir` (`filepath.Abs`), while
`AddRemoteFS(baseURL, fs)` registers it under `baseURL` exactly as
supplied, with no canonicalization. -/
theorem C7_registration_keys (cwd : String) (r : Rolodex)
    (baseDir baseURL : String) (f g : GoFS) :
    lookupAssoc (goAbs cwd baseDir) ((r.AddLocalFS cwd baseDir f).localFS) = some f ∧
    lookupAssoc baseURL ((r.AddRemoteFS baseURL g).remoteFS) = some g := by
  exact ⟨lookupAssoc_insertAssoc _ _ _, lookupAssoc_insertAssoc _ _ _⟩

/-- A URL-shaped location makes every root iteration skip silently. -/
theorem openRoot_url (cwd location k : String) (v : GoFS)
    (h : isUrlWithScheme location = true) :
    openRoot cwd location k v = (.skip, []) := by
  simp [openRoot, h]

/-- A root serving only empty generic content is passed over silently. -/
theorem openRoot_empty (cwd location k : String) (v : GoFS)
    (hurl : isUrlWithScheme location = false)
    (h : opensEmptyAt cwd location k v) :
    (openRoot cwd location k v).1 = .skip := by
  obtain ⟨g, hr, hs, hd, hcase⟩ := h
  have hdl : g.data.data = [] := by rw [hd]
  rcases hcase with hok | ⟨⟨e, herr⟩, hok⟩
  · simp [openRoot, hurl, hok, tryOpenedFile, hr, hs, hdl]
  · simp [openRoot, hurl, herr, hok, tryOpenedFile, hr, hs, hdl]

/-- A skipped head root leaves the loop's file and error results those of
the remaining roots. -/
theorem openLoop_skip_head (cwd location k : String) (v : GoFS)
    (rest : List (String × GoFS))
    (h : (openRoot cwd location k v).1 = .skip) :
    (openLoop cwd location ((k, v) :: rest)).1 = (openLoop cwd location rest).1 ∧
    (openLoop cwd location ((k, v) :: rest)).2.1 = (openLoop cwd location rest).2.1 := by
  rcases ho : openRoot cwd location k v with ⟨o, tr⟩
  rw [ho] at h
  simp only at h
  subst h
  rcases hrest : openLoop cwd location rest with ⟨f, es, tr'⟩
  simp [openLoop, ho, hrest]

/-- When every root iteration skips, the loop finds nothing and records
nothing. -/
theorem openLoop_all_skip (cwd location : String) :
    ∀ roots : List (String × GoFS),
    (∀ p ∈ roots, (openRoot cwd location p.1 p.2).1 = .skip) →
    (openLoop cwd location roots).1 = none ∧
    (openLoop cwd location roots).2.1 = [] := by
  intro roots
  induction roots with
  | nil => intro _; exact ⟨rfl, rfl⟩
  | cons p rest ih =>
    intro h
    have hh := openLoop_skip_head cwd location p.1 p.2 rest (h p (List.mem_cons_self _ _))
    have ht := ih (fun q hq => h q (List.mem_cons_of_mem _ hq))
    exact ⟨hh.1.trans ht.1, hh.2.trans ht.2⟩

/-- Claim C9: a successfully opened non-native file with empty content is
rejected with no recorded error and the loop continues (part one); as a
consequence, when the location is a URL with a scheme, or no local roots
are registered, or every root serves only empty content, `Open` returns no
file together with a `nil` combined error (part two). -/
theorem C9_empty_content_no_error (cwd location : String) :
    (∀ k v rest, isUrlWithScheme location = false →
      opensEmptyAt cwd location k v →
      (Rolodex.openIter cwd ((k, v) :: rest) location).file =
        (Rolodex.openIter cwd rest location).file ∧
      (Rolodex.openIter cwd ((k, v) :: rest) location).errs =
        (Rolodex.openIter cwd rest location).errs) ∧
    (∀ roots : List (String × GoFS),
      (isUrlWithScheme location = true ∨
        ∀ p ∈ roots, opensEmptyAt cwd location p.1 p.2) →
      (Rolodex.openIter cwd roots location).file = none ∧
      (Rolodex.openIter cwd roots location).errs = []) := by
  have hiter : ∀ roots : List (String × GoFS),
      (openLoop cwd location roots).1 = none →
      (Rolodex.openIter cwd roots location).file = none ∧
      (Rolodex.openIter cwd roots location).errs =
        (openLoop cwd location roots).2.1 := by
    intro roots h
    rcases hl : openLoop cwd location roots with ⟨f, es, tr⟩
    rw [hl] at h
    simp only at h
    subst h
    simp [Rolodex.openIter, hl]
  constructor
  · intro k v rest hurl hempty
    have hskip := openRoot_empty cwd location k v hurl hempty
    have hh := openLoop_skip_head cwd location k v rest hskip
    rcases hl : openLoop cwd location rest with ⟨f, es, tr⟩
    rcases hl2 : openLoop cwd location ((k, v) :: rest) with ⟨f2, es2, tr2⟩
    rw [hl, hl2] at hh
    simp only at hh
    obtain ⟨hf, hes⟩ := hh
    subst hf; subst hes
    unfold Rolodex.openIter
    rw [hl, hl2]
    cases f2 with
    | none => exact ⟨rfl, rfl⟩
    | some lf => exact ⟨rfl, rfl⟩
  · intro roots h
    have hskip : ∀ p ∈ roots, (openRoot cwd location p.1 p.2).1 = .skip := by
      rcases h with hurl | hempty
      · intro p _
        rw [openRoot_url cwd location p.1 p.2 hurl]
      · intro p hp
        rcases hu : isUrlWithScheme location with hfalse | htrue
        · exact openRoot_empty cwd location p.1 p.2 hu (hempty p hp)
        · rw [openRoot_url cwd location p.1 p.2 hu]
    have hall := openLoop_all_skip cwd location roots hskip
    have hi := hiter roots hall.1
    exact ⟨hi.1, hi.2.trans hall.2⟩

/-- Witness for C9: a single root serving only empty content yields no
file and a `nil` combined error. -/
theorem C9_witness :
    (Rolodex.openIter "/cwd" [("/a", cEmptyFS)] "e.yaml").file = none ∧
    (Rolodex.openIter "/cwd" [("/a", cEmptyFS)] "e.yaml").errs = [] := by
  have h := (C9_empty_content_no_error "/cwd" "e.yaml").2 [("/a", cEmptyFS)]
  refine h (Or.inr ?_)
  intro p hp
  have hp2 : p = ("/a", cEmptyFS) := List.mem_singleton.mp hp
  subst hp2
  exact ⟨{ data := "", readErr := none, statErr := none, modTime := (0 : Int) },
    rfl, rfl, rfl, Or.inl rfl⟩

/-- Claim C2 counterexample: with one local root registered and a URL
location, no registered filesystem yields a file, yet `Open` returns no
file together with a `nil` combined error (`errors.Join` of an empty
stack), not the non-nil combined error the claim requires. -/
theorem C2_counterexample :
    (Rolodex.openIter "/cwd" [("/a", c4fs1)] "http://example.com/s.yaml").file = none ∧
    (Rolodex.openIter "/cwd" [("/a", c4fs1)] "http://example.com/s.yaml").errs = [] :=
  ⟨rfl, rfl⟩

/-- When both lookups of the head root fail, the loop prepends the
fallback lookup's error to the remaining roots' results. -/
theorem openLoop_err_head (cwd location k : String) (v : GoFS)
    (rest : List (String × GoFS)) (e₁ e₂ : GoError)
    (hurl : isUrlWithScheme location = false)
    (h1 : v.openFile (if goIsAbs location then location
                      else goAbs cwd (goJoin k location)) = .error e₁)
    (h2 : v.openFile location = .error e₂) :
    (openLoop cwd location ((k, v) :: rest)).1 = (openLoop cwd location rest).1 ∧
    (openLoop cwd location ((k, v) :: rest)).2.1 =
      e₂ :: (openLoop cwd location rest).2.1 := by
  have ho : openRoot cwd location k v =
      (.failErr e₂, [(if goIsAbs location then location
                      else goAbs cwd (goJoin k location)), location]) := by
    simp [openRoot, hurl, h1, h2]
  rcases hrest : openLoop cwd location rest with ⟨f, es, tr'⟩
  simp [openLoop, ho, hrest]

/-- Claim C2 (amended): when no registered filesystem yields a file,
`Open` returns no file together with the join of the recorded per-root
lookup failures — one per attempted root, namely the error of the
raw-location fallback lookup. The combined error is non-nil whenever at
least one root was attempted and failed with an error; it is `nil` when
nothing was recorded (no local roots, a URL location, or roots rejected
only for empty content). -/
theorem C2_combined_error (cwd location : String)
    (roots : List (String × GoFS)) (e2f : String × GoFS → GoError)
    (hurl : isUrlWithScheme location = false)
    (hfail : ∀ p ∈ roots,
      (∃ e, p.2.openFile (if goIsAbs location then location
                          else goAbs cwd (goJoin p.1 location)) = .error e) ∧
      p.2.openFile location = .error (e2f p)) :
    (Rolodex.openIter cwd roots location).file = none ∧
    (Rolodex.openIter cwd roots location).errs = roots.map e2f ∧
    (roots ≠ [] → (Rolodex.openIter cwd roots location).errs ≠ []) := by
  have hloop : ∀ rs : List (String × GoFS),
      (∀ p ∈ rs, (∃ e, p.2.openFile (if goIsAbs location then location
                          else goAbs cwd (goJoin p.1 location)) = .error e) ∧
        p.2.openFile location = .error (e2f p)) →
      (openLoop cwd location rs).1 = none ∧
      (openLoop cwd location rs).2.1 = rs.map e2f := by
    intro rs
    induction rs with
    | nil => intro _; exact ⟨rfl, rfl⟩
    | cons p rest ih =>
      intro h
      obtain ⟨⟨e₁, he₁⟩, he₂⟩ := h p (List.mem_cons_self _ _)
      have hh := openLoop_err_head cwd location p.1 p.2 rest e₁ (e2f p) hurl he₁ he₂
      have ht := ih (fun q hq => h q (List.mem_cons_of_mem _ hq))
      refine ⟨hh.1.trans ht.1, ?_⟩
      rw [hh.2, ht.2]
      rfl
  have hl := hloop roots hfail
  rcases hl2 : openLoop cwd location roots with ⟨f, es, tr⟩
  rw [hl2] at hl
  simp only at hl
  obtain ⟨hf, hes⟩ := hl
  subst hf; subst hes
  refine ⟨?_, ?_, ?_⟩
  · unfold Rolodex.openIter
    rw [hl2]
  · unfold Rolodex.openIter
    rw [hl2]
  · intro hne
    unfold Rolodex.openIter
    rw [hl2]
    simpa using hne

/-- Witness for C2 (amended) at one always-failing root. -/
theorem C2_witness :
    (Rolodex.openIter "/cwd" [("/a", cFailFS)] "s.yaml").file = none ∧
    (Rolodex.openIter "/cwd" [("/a", cFailFS)] "s.yaml").errs =
      [{ msg := "always fails" }] := by
  have h := C2_combined_error "/cwd" "s.yaml" [("/a", cFailFS)]
    (fun _ => { msg := "always fails" }) rfl ?_
  · exact ⟨h.1, h.2.1⟩
  · intro p hp
    have hp2 : p = ("/a", cFailFS) := List.mem_singleton.mp hp
    subst hp2
    exact ⟨⟨{ msg := "always fails" }, rfl⟩, rfl⟩

/-- Claim C3 counterexample: with one root `/r1` and the relative location
`spec.yaml`, served by a filesystem carrying distinct content at the joined
path (`"B"`) and at the raw location (`"A"`), the FIRST lookup `Open`
performs is the root-joined path, not the location as supplied, and the
returned file is the joined path's — so `Open` does not first try the
location exactly as supplied. -/
theorem C3_counterexample :
    (Rolodex.openIter "/cwd" [("/r1", c3fs)] "spec.yaml").trace.head? ≠
      some "spec.yaml" ∧
    (Rolodex.openIter "/cwd" [("/r1", c3fs)] "spec.yaml").trace.head? =
      some "/r1/spec.yaml" ∧
    (Rolodex.openIter "/cwd" [("/r1", c3fs)] "spec.yaml").file.map
      rolodexFile.GetContent = some "B" := by
  refine ⟨?_, rfl, rfl⟩
  intro h
  rw [(rfl : (Rolodex.openIter "/cwd" [("/r1", c3fs)] "spec.yaml").trace.head? =
      some "/r1/spec.yaml")] at h
  exact absurd (Option.some.inj h) (by decide)

/-- Claim C3 (amended): for each registered local root in turn, `Open`
first tries the location relative-joined against that root (the location
itself when absolute), and only when that lookup errors retries the
location exactly as supplied against the same root's filesystem; it stops
at the first root that yields a file, never consulting the remaining
roots. -/
theorem C3_lookup_order (cwd k location : String) (v : GoFS)
    (hurl : isUrlWithScheme location = false) :
    (∀ f, v.openFile (if goIsAbs location then location
                      else goAbs cwd (goJoin k location)) = .ok f →
      (openRoot cwd location k v).2 =
        [(if goIsAbs location then location else goAbs cwd (goJoin k location))]) ∧
    (∀ e, v.openFile (if goIsAbs location then location
                      else goAbs cwd (goJoin k location)) = .error e →
      (openRoot cwd location k v).2 =
        [(if goIsAbs location then location else goAbs cwd (goJoin k location)),
         location]) ∧
    (∀ rest lf tr, openRoot cwd location k v = (.found lf, tr) →
      Rolodex.openIter cwd ((k, v) :: rest) location =
        { file := some { location := lf.fullPath, index := none,
                         localFile := some lf, remoteFile := none },
          errs := [], trace := tr }) := by
  refine ⟨?_, ?_, ?_⟩
  · intro f hf
    simp [openRoot, hurl, hf]
  · intro e he
    cases h2 : v.openFile location with
    | ok f => simp [openRoot, hurl, he, h2]
    | error e₂ => simp [openRoot, hurl, he, h2]
  · intro rest lf tr h
    simp [Rolodex.openIter, openLoop, h]

/-- Witness for C3 (amended): on the concrete counterexample filesystem the
joined path is looked up first and found. -/
theorem C3_witness :
    (openRoot "/cwd" "spec.yaml" "/r1" c3fs).2 = ["/r1/spec.yaml"] := by
  have h := (C3_lookup_order "/cwd" "/r1" "spec.yaml" c3fs rfl).1
  exact h (.generic { data := "B", readErr := none, statErr := none,
                      modTime := (0 : Int) }) rfl

/-- Claim C4 counterexample: `localFS` is a Go map, whose iteration order
is unspecified; if `Open` searched the roots in registration order its
result would be invariant under the iteration order actually drawn. For
the concrete map with roots `/a` (content `"ONE"`) and `/b` (content
`"TWO"`), the reversed iteration order — a permutation of the registered
entries — returns the other file, so the search does not follow
registration order. -/
theorem C4_counterexample :
    ¬ (∀ order : List (String × GoFS),
        order.Perm [("/a", c4fs1), ("/b", c4fs2)] →
        (Rolodex.openIter "/cwd" order "s.yaml").file.map rolodexFile.GetContent =
          (Rolodex.openIter "/cwd" [("/a", c4fs1), ("/b", c4fs2)]
            "s.yaml").file.map rolodexFile.GetContent) := by
  intro h
  have hp : ([("/b", c4fs2), ("/a", c4fs1)] : List (String × GoFS)).Perm
      [("/a", c4fs1), ("/b", c4fs2)] :=
    List.Perm.swap ("/a", c4fs1) ("/b", c4fs2) []
  have h2 := h _ hp
  rw [(rfl : (Rolodex.openIter "/cwd" [("/b", c4fs2), ("/a", c4fs1)]
        "s.yaml").file.map rolodexFile.GetContent = some "TWO")] at h2
  rw [(rfl : (Rolodex.openIter "/cwd" [("/a", c4fs1), ("/b", c4fs2)]
        "s.yaml").file.map rolodexFile.GetContent = some "ONE")] at h2
  exact absurd (Option.some.inj h2) (by decide)

/-- A root that yields a file ends the loop with that file, whatever
non-yielding roots precede it. -/
theorem openLoop_found (cwd location : String) :
    ∀ (pre : List (String × GoFS)) (k : String) (v : GoFS)
      (post : List (String × GoFS)) (lf : LocalFile),
    (∀ p ∈ pre, ∀ lf', (openRoot cwd location p.1 p.2).1 ≠ .found lf') →
    (openRoot cwd location k v).1 = .found lf →
    (openLoop cwd location (pre ++ (k, v) :: post)).1 = some lf := by
  intro pre
  induction pre with
  | nil =>
    intro k v post lf _ hfound
    rcases ho : openRoot cwd location k v with ⟨o, tr⟩
    rw [ho] at hfound
    simp only at hfound
    subst hfound
    simp [openLoop, ho]
  | cons p rest ih =>
    intro k v post lf hpre hfound
    rcases ho : openRoot cwd location p.1 p.2 with ⟨o, tr⟩
    cases o with
    | found lf' =>
      exact absurd (by rw [ho]) (hpre p (List.mem_cons_self _ _) lf')
    | failErr e =>
      have ht := ih k v post lf
        (fun q hq => hpre q (List.mem_cons_of_mem _ hq)) hfound
      rcases hrest : openLoop cwd location (rest ++ (k, v) :: post) with ⟨f, es, tr'⟩
      rw [hrest] at ht
      simp only at ht
      subst ht
      simp [openLoop, ho, hrest]
    | skip =>
      have ht := ih k v post lf
        (fun q hq => hpre q (List.mem_cons_of_mem _ hq)) hfound
      rcases hrest : openLoop cwd location (rest ++ (k, v) :: post) with ⟨f, es, tr'⟩
      rw [hrest] at ht
      simp only at ht
      subst ht
      simp [openLoop, ho, hrest]

/-- Claim C4 (amended): the local roots are searched in the unspecified Go
map iteration order, not necessarily registration order; because every
root is tried until one yields a file, a location served at exactly one
root — in particular one present only in the later-registered root —
resolves successfully wherever that root sits in the iteration order. -/
theorem C4_later_root_resolves (cwd location k : String) (v : GoFS)
    (pre post : List (String × GoFS)) (lf : LocalFile)
    (hpre : ∀ p ∈ pre, ∀ lf', (openRoot cwd location p.1 p.2).1 ≠ .found lf')
    (hfound : (openRoot cwd location k v).1 = .found lf) :
    (Rolodex.openIter cwd (pre ++ (k, v) :: post) location).file =
      some { location := lf.fullPath, index := none,
             localFile := some lf, remoteFile := none } := by
  have hl := openLoop_found cwd location pre k v post lf hpre hfound
  rcases hl2 : openLoop cwd location (pre ++ (k, v) :: post) with ⟨f, es, tr⟩
  rw [hl2] at hl
  simp only at hl
  subst hl
  unfold Rolodex.openIter
  rw [hl2]

/-- Witness for C4: with an always-failing root iterated first, the
location present only at the second root still resolves. -/
theorem C4_witness :
    (Rolodex.openIter "/cwd" [("/z", cFailFS), ("/b", c4fs2)] "s.yaml").file =
      some { location := "/b/s.yaml", index := none,
             localFile := some c4foundFile, remoteFile := none } := by
  have hz : (openRoot "/cwd" "s.yaml" "/z" cFailFS).1 =
      .failErr { msg := "always fails" } := rfl
  have h := C4_later_root_resolves "/cwd" "s.yaml" "/b" c4fs2
    [("/z", cFailFS)] [] c4foundFile ?_ (by rfl)
  · exact h
  · intro p hp lf' hc
    have hp2 : p = ("/z", cFailFS) := List.mem_singleton.mp hp
    subst hp2
    rw [hz] at hc
    exact RootOutcome.noConfusion hc

/-- `IndexTheRolodex` never assigns the `indexed` guard flag: the flag
after any call equals the flag before it (the source checks `r.indexed` at
line 193 but contains no assignment to it). -/
theorem indexTheRolodex_preserves_indexed
    (parse : String → Except GoError SpecInfo)
    (build : Nat → SpecIndexConfig → SpecIndex)
    (sched : List Nat) (fuel : Nat) (r : Rolodex) :
    (Rolodex.IndexTheRolodex parse build sched fuel r).rolodex.indexed =
      r.indexed := by
  unfold Rolodex.IndexTheRolodex
  split <;> rfl

/-- Claim C1 evaluated at the failing input: a rolodex with one local
filesystem holding one valid file. The first `IndexTheRolodex` call
completes with a `nil` error, yet leaves the `indexed` guard flag `false`
(the source never sets it), so the second call is not a no-op: it
dispatches one per-file indexing task again instead of performing no
indexing work. -/
theorem C1_second_call_still_indexes :
    ((Rolodex.IndexTheRolodex wParse wBuilder [] 10
        (wRolodex [wFile "a.yaml" "good"])).rolodex.indexed = false) ∧
    ((Rolodex.IndexTheRolodex wParse wBuilder [] 10
        (wRolodex [wFile "a.yaml" "good"])).drained.map
          DrainState.caughtErrors = some []) ∧
    ((Rolodex.IndexTheRolodex wParse wBuilder [] 10
        ((Rolodex.IndexTheRolodex wParse wBuilder [] 10
          (wRolodex [wFile "a.yaml" "good"])).rolodex)).tasksDispatched = 1) := by
  refine ⟨rfl, rfl, rfl⟩

/-- Whatever the schedule, a gather loop over one `*LocalFS` task whose
queues hold exactly one pending error (at queue `fdx`, every other queue
holding only index messages) that terminates within its fuel terminates at
the receipt of that error: the caught-error list is exactly `[e]` and the
completion counter is `1`. The loop cannot exit earlier — `done` only
becomes available after every queue drains, and the error queue cannot
drain before its error is consumed. -/
theorem drain_single_err (e : GoError) (fdx : Nat) :
    ∀ (fuel : Nat) (sched : List Nat) (s : DrainState) (task : FSTask)
      (rest : List Msg) (s' : DrainState),
    s.tasks = [task] → s.completed = 0 → s.caughtErrors = [] →
    task.isLocal = true → task.doneSent = false →
    task.queues.get? fdx = some (Msg.err e :: rest) →
    (∀ j q, ¬ j = fdx → task.queues.get? j = some q →
      ∀ m ∈ q, ∃ i, m = Msg.idx i) →
    drain 1 fuel sched s = some s' →
    s'.caughtErrors = [e] ∧ s'.completed = 1 := by
  intro fuel
  induction fuel with
  | zero =>
    intro sched s task rest s' _ _ _ _ _ _ _ hd
    exact absurd hd (by simp [drain])
  | succ n ih =>
    intro sched s task rest s' htasks hcomp herrs hloc hdone hq hothers hd
    rw [drain, hcomp, if_neg (by decide)] at hd
    have havail : availChoices s = taskChoices 0 task := by
      simp [availChoices, htasks, show List.range 1 = [0] from by decide]
    cases hav : (availChoices s).get?
        (sched.headD 0 % (availChoices s).length) with
    | none => rw [hav] at hd; exact absurd hd (by simp)
    | some c =>
      rw [hav] at hd
      have hmem : c ∈ availChoices s := List.get?_mem hav
      rw [havail] at hmem
      have hne : task.queues.all List.isEmpty = false := by
        by_contra hcon
        rw [Bool.not_eq_false] at hcon
        have := List.all_eq_true.mp hcon _ (List.get?_mem hq)
        simp [List.isEmpty] at this
      rw [taskChoices, hloc, hdone, hne] at hmem
      simp only [Bool.true_and, Bool.not_false, Bool.and_false,
        Bool.false_eq_true, if_false, List.append_nil] at hmem
      obtain ⟨f, hf, hfc⟩ := List.mem_map.mp hmem
      subst hfc
      have hd2 : drain 1 n sched.tail (applyChoice s (StepChoice.msg 0 f)) =
          some s' := hd
      obtain ⟨hfr, hfp⟩ := List.mem_filter.mp hf
      have hflt : f < task.queues.length := List.mem_range.mp hfr
      have hgq : task.queues.get? f = some (task.queues.get ⟨f, hflt⟩) :=
        List.get?_eq_get hflt
      have hgd : task.queues.getD f [] = task.queues.get ⟨f, hflt⟩ := by
        unfold List.getD
        rw [hgq]
        rfl
      rw [hgd] at hfp
      by_cases hffdx : f = fdx
      · subst hffdx
        have hqv : task.queues.get ⟨f, hflt⟩ = Msg.err e :: rest := by
          have := hq.symm.trans hgq
          exact (Option.some.inj this).symm
        have happ : applyChoice s (.msg 0 f) =
            { s with
              tasks := s.tasks.set 0
                { task with queues := task.queues.set f rest },
              completed := s.completed + 1,
              caughtErrors := s.caughtErrors ++ [e] } := by
          rw [applyChoice, htasks]
          simp only [List.get?]
          rw [hgq, hqv]
        rw [happ] at hd2
        cases n with
        | zero => exact absurd hd2 (by simp [drain])
        | succ n₂ =>
          rw [drain, if_pos (by simp [hcomp])] at hd2
          have hs' := Option.some.inj hd2
          rw [← hs']
          simp [herrs, hcomp]
      · have hmq : ∀ m ∈ task.queues.get ⟨f, hflt⟩, ∃ i, m = Msg.idx i :=
          hothers f _ hffdx hgq
        cases hqv : task.queues.get ⟨f, hflt⟩ with
        | nil => rw [hqv] at hfp; simp [List.isEmpty] at hfp
        | cons m q' =>
          obtain ⟨i, hmi⟩ := hmq m (by rw [hqv]; exact List.mem_cons_self _ _)
          subst hmi
          have happ : applyChoice s (.msg 0 f) =
              { s with
                tasks := s.tasks.set 0
                  { task with queues := task.queues.set f q' },
                indexBuildQueue := s.indexBuildQueue ++ [i] } := by
            rw [applyChoice, htasks]
            simp only [List.get?]
            rw [hgq, hqv]
          rw [happ] at hd2
          refine ih sched.tail _ { task with queues := task.queues.set f q' }
            rest s' ?_ ?_ ?_ ?_ ?_ ?_ ?_ hd2
          · rw [htasks]; rfl
          · exact hcomp
          · exact herrs
          · exact hloc
          · exact hdone
          · simp only
            rw [List.get?_eq_getElem?, List.getElem?_set_ne hffdx,
              ← List.get?_eq_getElem?]
            exact hq
          · intro j q hj hjq
            simp only at hjq
            by_cases hjf : j = f
            · subst hjf
              rw [List.get?_eq_getElem?, List.getElem?_set_eq_of_lt _ hflt] at hjq
              have hqq : q = q' := Option.some.inj hjq.symm
              subst hqq
              intro m₂ hm₂
              exact hmq m₂ (by rw [hqv]; exact List.mem_cons_of_mem _ hm₂)
            · rw [List.get?_eq_getElem?,
                List.getElem?_set_ne (fun hh => hjf hh.symm),
                ← List.get?_eq_getElem?] at hjq
              exact hothers j q hj hjq

/-- Claim C6: over one registered local filesystem holding `N` files of
which exactly one fails to parse, every terminating run of
`IndexTheRolodex` — whatever the channel schedule — joins exactly that one
per-file error into the combined error (`caughtErrors = [e]`), and the
sibling tasks are not aborted: every other file ends up with its index
built and cached, the failing file is left uncached, and one indexing task
was dispatched per file. -/
theorem C6_isolated_file_error
    (parse : String → Except GoError SpecInfo)
    (build : Nat → SpecIndexConfig → SpecIndex)
    (k : String) (openf : String → Except GoError FsFile)
    (cfg : SpecIndexConfig) (gs1 gs2 : List LocalFile) (bad : LocalFile)
    (e : GoError) (sched : List Nat) (fuel : Nat)
    (hgood : ∀ f ∈ gs1 ++ gs2, f.index.isSome = true ∨ ∃ i, parse f.data = .ok i)
    (hbadc : bad.index = none) (hbadp : parse bad.data = .error e) :
    (∀ d, (Rolodex.IndexTheRolodex parse build sched fuel
        (oneFSRolodex k openf cfg (gs1 ++ bad :: gs2))).drained = some d →
      d.caughtErrors = [e] ∧ d.completed = 1) ∧
    (∀ f ∈ gs1 ++ gs2,
      ((LocalFile.indexTask parse build
          { cfg with avoidBuildIndex := true } f).1).index.isSome = true) ∧
    (LocalFile.indexTask parse build
        { cfg with avoidBuildIndex := true } bad).1 = bad ∧
    (Rolodex.IndexTheRolodex parse build sched fuel
        (oneFSRolodex k openf cfg (gs1 ++ bad :: gs2))).rolodex.localFS =
      [(k, { openFile := openf,
             localFiles := some ((gs1 ++ bad :: gs2).map
               (fun f => (LocalFile.indexTask parse build
                 { cfg with avoidBuildIndex := true } f).1)) })] ∧
    (Rolodex.IndexTheRolodex parse build sched fuel
        (oneFSRolodex k openf cfg (gs1 ++ bad :: gs2))).tasksDispatched =
      (gs1 ++ bad :: gs2).length := by
  have hbadmsg : (LocalFile.indexTask parse build
      { cfg with avoidBuildIndex := true } bad).2 =
      [Msg.err e, Msg.idx none] := by
    unfold LocalFile.indexTask
    rw [hbadc, hbadp]
  have hbadfst : (LocalFile.indexTask parse build
      { cfg with avoidBuildIndex := true } bad).1 = bad := by
    unfold LocalFile.indexTask
    rw [hbadc, hbadp]
  have hgoodmsg : ∀ f ∈ gs1 ++ gs2,
      ∀ m ∈ (LocalFile.indexTask parse build
        { cfg with avoidBuildIndex := true } f).2, ∃ i, m = Msg.idx i := by
    intro f hf m hm
    unfold LocalFile.indexTask at hm
    cases hidx : f.index with
    | some i =>
      rw [hidx] at hm
      simp only [List.mem_singleton] at hm
      exact ⟨some i, hm⟩
    | none =>
      rcases hgood f hf with hs | ⟨i₂, hok⟩
      · rw [hidx] at hs
        simp at hs
      · rw [hidx, hok] at hm
        simp only [List.mem_singleton] at hm
        exact ⟨_, hm⟩
  have hgoodfst : ∀ f ∈ gs1 ++ gs2,
      ((LocalFile.indexTask parse build
        { cfg with avoidBuildIndex := true } f).1).index.isSome = true := by
    intro f hf
    unfold LocalFile.indexTask
    cases hidx : f.index with
    | some i => simp [hidx]
    | none =>
      rcases hgood f hf with hs | ⟨i₂, hok⟩
      · rw [hidx] at hs
        simp at hs
      · simp [hok]
  have hdrained : (Rolodex.IndexTheRolodex parse build sched fuel
      (oneFSRolodex k openf cfg (gs1 ++ bad :: gs2))).drained =
      drain 1 fuel sched
        { tasks := [{ isLocal := true,
                      queues := (gs1 ++ bad :: gs2).map
                        (fun f => (LocalFile.indexTask parse build
                          { cfg with avoidBuildIndex := true } f).2),
                      doneSent := false }],
          completed := 0, caughtErrors := [], indexBuildQueue := [] } := by
    simp [Rolodex.IndexTheRolodex, oneFSRolodex, spawnFS, List.map_map,
      Function.comp_def]
  refine ⟨?_, hgoodfst, hbadfst, ?_, ?_⟩
  · intro d hd
    rw [hdrained] at hd
    have hqs : ((gs1 ++ bad :: gs2).map
        (fun f => (LocalFile.indexTask parse build
          { cfg with avoidBuildIndex := true } f).2)).get? gs1.length =
        some [Msg.err e, Msg.idx none] := by
      rw [List.map_append, List.map_cons]
      have hlen : gs1.length = (gs1.map
          (fun f => (LocalFile.indexTask parse build
            { cfg with avoidBuildIndex := true } f).2)).length := by
        rw [List.length_map]
      rw [hlen, List.get?_eq_getElem?,
        List.getElem?_append_right (Nat.le_refl _)]
      simp [hbadmsg]
    refine drain_single_err e gs1.length fuel sched _ _ [Msg.idx none] d
      rfl rfl rfl rfl rfl hqs ?_ hd
    intro j q hj hjq
    simp only at hjq
    rw [List.map_append, List.map_cons] at hjq
    by_cases hlt : j < gs1.length
    · rw [List.get?_eq_getElem?, List.getElem?_append_left
        (by rw [List.length_map]; exact hlt)] at hjq
      rw [← List.get?_eq_getElem?] at hjq
      have hqmem := List.get?_mem hjq
      obtain ⟨f, hfmem, hfq⟩ := List.mem_map.mp hqmem
      intro m hm
      rw [← hfq] at hm
      exact hgoodmsg f (List.mem_append_left _ hfmem) m hm
    · have hgt : gs1.length < j := by
        rcases Nat.lt_or_ge j gs1.length with h1 | h2
        · exact absurd h1 hlt
        · rcases Nat.eq_or_lt_of_le h2 with h3 | h4
          · exact absurd h3.symm hj
          · exact h4
      rw [List.get?_eq_getElem?, List.getElem?_append_right
        (by rw [List.length_map]; exact Nat.le_of_lt hgt)] at hjq
      rw [List.length_map] at hjq
      rcases hsub : j - gs1.length with _ | t
      · exact absurd (Nat.sub_eq_zero_iff_le.mp hsub)
          (Nat.not_le_of_lt hgt)
      · rw [hsub] at hjq
        simp only [List.getElem?_cons_succ] at hjq
        rw [← List.get?_eq_getElem?] at hjq
        have hqmem := List.get?_mem hjq
        obtain ⟨f, hfmem, hfq⟩ := List.mem_map.mp hqmem
        intro m hm
        rw [← hfq] at hm
        exact hgoodmsg f (List.mem_append_right _ hfmem) m hm
  · simp [Rolodex.IndexTheRolodex, oneFSRolodex, spawnFS, List.map_map,
      Function.comp_def]
  · simp [Rolodex.IndexTheRolodex, oneFSRolodex, spawnFS, List.map_map,
      Function.comp_def]

/-- Witness for C6: three files with the middle one invalid — the concrete
default-schedule run reports exactly the one parse error, and a sibling
file's index is built and cached. -/
theorem C6_witness :
    ((Rolodex.IndexTheRolodex wParse wBuilder [] 20
        (oneFSRolodex "/r" (fun _ => .error { msg := "nf" }) wConfig
          [wFile "a.yaml" "good", wFile "b.yaml" "oops",
           wFile "c.yaml" "good"])).drained.map
      DrainState.caughtErrors) = some [{ msg := "parse fail" }] ∧
    ((LocalFile.indexTask wParse wBuilder
        { wConfig with avoidBuildIndex := true }
        (wFile "a.yaml" "good")).1).index.isSome = true := by
  have h := C6_isolated_file_error wParse wBuilder "/r"
    (fun _ => .error { msg := "nf" }) wConfig
    [wFile "a.yaml" "good"] [wFile "c.yaml" "good"] (wFile "b.yaml" "oops")
    { msg := "parse fail" } [] 20
    (by
      intro f hf
      right
      rcases List.mem_append.mp hf with h1 | h1
      · rw [List.mem_singleton.mp h1]
        exact ⟨{ rootNode := 1 }, rfl⟩
      · rw [List.mem_singleton.mp h1]
        exact ⟨{ rootNode := 1 }, rfl⟩)
    rfl rfl
  constructor
  · cases hdr : (Rolodex.IndexTheRolodex wParse wBuilder [] 20
        (oneFSRolodex "/r" (fun _ => .error { msg := "nf" }) wConfig
          [wFile "a.yaml" "good", wFile "b.yaml" "oops",
           wFile "c.yaml" "good"])).drained with
    | none =>
      have hs : (Rolodex.IndexTheRolodex wParse wBuilder [] 20
          (oneFSRolodex "/r" (fun _ => .error { msg := "nf" }) wConfig
            [wFile "a.yaml" "good", wFile "b.yaml" "oops",
             wFile "c.yaml" "good"])).drained.isSome = true := rfl
      rw [hdr] at hs
      simp at hs
    | some d =>
      have hce := (h.1 d hdr).1
      show some d.caughtErrors = some [{ msg := "parse fail" }]
      rw [hce]
  · exact h.2.1 (wFile "a.yaml" "good") (by simp)

end LibOpenAPI
